import Mathlib

/-!
Verification of the analytics core of the etf-compare repository
(`src/server.py`) against its specification.

Shallow embedding conventions:
* Python floats are modelled as real numbers (`ℝ`) where fractional powers
  or square roots occur, and as rationals (`ℚ`) elsewhere, so that the
  discrete algorithms stay executable.
* `date` strings `"YYYY-MM-DD"` are modelled as natural numbers (e.g. the
  number `yyyymmdd`); lexicographic comparison of the equal-length strings
  coincides with numeric comparison, and `int(date[:4])` becomes `d / 10000`.
* Python `round(x, n)` rounds half-to-even while Mathlib's `round` rounds
  half-up; the two differ only at exact midpoints and every bound proved
  below (always of the form `|round(x) - x| <= 1/2` scaled) holds for both.
* Fallible lookups (`dict.get`) are modelled with `Option`.
-/

/-- `round(x, 1)` of Python, on rationals. -/
def round1 (x : ℚ) : ℚ := (round (x * 10) : ℤ) / 10

/-- `round(x, 2)` of Python, on rationals. -/
def round2 (x : ℚ) : ℚ := (round (x * 100) : ℤ) / 100

/-- `round(x, 4)` of Python, on rationals. -/
def round4 (x : ℚ) : ℚ := (round (x * 10000) : ℤ) / 10000

/-- `round(x, 1)` of Python, on reals. -/
noncomputable def round1R (x : ℝ) : ℝ := (round (x * 10) : ℤ) / 10

/-- `round(x, 2)` of Python, on reals. -/
noncomputable def round2R (x : ℝ) : ℝ := (round (x * 100) : ℤ) / 100

/-- `round(x, 4)` of Python, on reals. -/
noncomputable def round4R (x : ℝ) : ℝ := (round (x * 10000) : ℤ) / 10000

/-- `annualized_return` (src/server.py lines 264-267).
`if not start_price or start_price == 0 or years <= 0: return 0.0` — for a
float argument `not start_price` is `start_price == 0`, so the guard is
`start_price = 0 ∨ years ≤ 0`.  Otherwise
`(math.pow(end_price / start_price, 1.0 / years) - 1) * 100`, modelled with
the real power `Real.rpow`. -/
noncomputable def annualized_return (start_price end_price years : ℝ) : ℝ :=
  if start_price = 0 ∨ years ≤ 0 then 0
  else ((end_price / start_price) ^ (1 / years) - 1) * 100

/-- `cumulative_return` (src/server.py lines 270-275): `None` propagates,
otherwise `round((math.pow(1 + annualized_pct / 100, years) - 1) * 100, 1)`. -/
noncomputable def cumulative_return (annualized_pct : Option ℝ) (years : ℝ) : Option ℝ :=
  annualized_pct.map (fun pct => round1R (((1 + pct / 100) ^ years - 1) * 100))

/-! ### Asset entries and the diversification ranking
(src/server.py lines 278-286 and 694-733) -/

/-- The metric fields of one asset entry (the dict rows of `compute_from_db` /
`FALLBACK_DATA`) that the ranking and portfolio synthesis read.  A `dict.get`
that may miss or hold `None` is an `Option`.  Presentation-only string fields
are omitted.  The source keys `expenseRatio` / `dividendYield` are modelled by
the fields `er` / `dy` (the local variable names used at src/server.py lines
773-776). -/
structure Entry where
  ticker : String
  ytdReturn : Option ℚ
  oneYearReturn : Option ℚ
  threeYearReturn : Option ℚ
  fiveYearReturn : Option ℚ
  tenYearReturn : Option ℚ
  fifteenYearReturn : Option ℚ
  twentyYearReturn : Option ℚ
  twentyFiveYearReturn : Option ℚ
  sinceInceptionReturn : Option ℚ
  sinceInceptionYears : Option ℚ
  since1990Return : Option ℚ
  since1990Years : Option ℚ
  maxDrawdown : Option ℚ
  er : Option ℚ
  dy : Option ℚ
  annualizedStdDev : Option ℚ
deriving DecidableEq

/-- `best_annualized_return` (src/server.py lines 278-286): first available of
25Y, 20Y, 15Y, 10Y, 5Y. -/
def best_annualized_return (e : Entry) : Option ℚ :=
  (((e.twentyFiveYearReturn.orElse fun _ => e.twentyYearReturn).orElse
      fun _ => e.fifteenYearReturn).orElse
    fun _ => e.tenYearReturn).orElse fun _ => e.fiveYearReturn

/-- The sort key `e.get("tenYearReturn") or 0` used by `diversification_sort`
(src/server.py lines 702 and 706): a missing (or zero) ten-year return counts
as `0`. -/
def ten_key (e : Entry) : ℚ := e.tenYearReturn.getD 0

/-- A correlation map as consumed by `diversification_sort`: the nested dict
`corr_map`, where a missing outer or inner key is `none`. -/
def CorrFn : Type := String → String → Option ℚ

/-- `corr_map.get(ct, {}).get(st, corr_map.get(st, {}).get(ct, 0.5))`
(src/server.py line 721). -/
def lookup_corr (cm : CorrFn) (ct st : String) : ℚ :=
  match cm ct st with
  | some c => c
  | none => (cm st ct).getD (1 / 2)

/-- The candidate score of the greedy loop (src/server.py lines 716-723):
mean of `abs(corr(candidate, s))` over the selected `s`, `1.0` if no asset is
selected yet. -/
def avg_abs_corr (cm : CorrFn) (selected : List Entry) (c : Entry) : ℚ :=
  let corrs := selected.map fun sel => |lookup_corr cm c.ticker sel.ticker|
  if corrs.isEmpty then 1 else corrs.sum / corrs.length

/-- One step of the inner `for candidate in remaining` loop of
`diversification_sort` (src/server.py lines 715-727): keep the first
candidate strictly improving on the best average correlation seen so far
(initially `float("inf")` = `none`, so the first candidate always
installs). -/
def pick_step (f : Entry → ℚ) (best : Option (Entry × ℚ)) (c : Entry) : Option (Entry × ℚ) :=
  match best with
  | none => some (c, f c)
  | some (b, bv) => if f c < bv then some (c, f c) else some (b, bv)

/-- The inner `for candidate in remaining` loop of `diversification_sort`
(src/server.py lines 712-727). -/
def pick_candidate (f : Entry → ℚ) (remaining : List Entry) : Option (Entry × ℚ) :=
  remaining.foldl (pick_step f) none

/-- The `while remaining` loop of `diversification_sort` (src/server.py lines
711-731).  The fuel argument is initialised to `remaining.length`; each pass
removes the picked element (`remaining.remove(best_candidate)` removes the
first occurrence equal to it, as `List.erase` does), so the loop runs exactly
`remaining.length` times and the fuel never runs out. -/
def greedyGo (cm : CorrFn) : Nat → List Entry → List Entry → List Entry
  | 0, selected, _ => selected
  | fuel + 1, selected, remaining =>
    match pick_candidate (avg_abs_corr cm selected) remaining with
    | none => selected
    | some (b, _) => greedyGo cm fuel (selected ++ [b]) (remaining.erase b)

/-- `sorted(results, key=lambda e: e.get("tenYearReturn") or 0, reverse=True)`
(src/server.py lines 702 and 706).  Python's sort is stable; a stable
descending sort by key is exactly `List.insertionSort` with the relation
`ten_key b ≤ ten_key a`. -/
def by_return_sort (results : List Entry) : List Entry :=
  List.insertionSort (fun a b => ten_key b ≤ ten_key a) results

instance : IsTotal Entry fun a b => ten_key b ≤ ten_key a :=
  ⟨fun a b => (le_total (ten_key b) (ten_key a)).imp id id⟩

instance : IsTrans Entry fun a b => ten_key b ≤ ten_key a :=
  ⟨fun _ _ _ h1 h2 => le_trans h2 h1⟩

/-- `diversification_sort` (src/server.py lines 694-733): if at most `top_n`
entries exist, just the return sort; otherwise `selected = by_return[:top_n]`
and `remaining = by_return[top_n:]` feed the greedy loop, whose fuel is the
exact number of iterations `remaining.length`. -/
def diversification_sort (results : List Entry) (cm : CorrFn) (top_n : Nat := 4) :
    List Entry :=
  if results.length ≤ top_n then by_return_sort results
  else
    greedyGo cm ((by_return_sort results).drop top_n).length
      ((by_return_sort results).take top_n) ((by_return_sort results).drop top_n)

/-! ### Portfolio synthesis (src/server.py lines 736-846) -/

/-- `_avg` (src/server.py lines 736-739): mean of the non-`None` values
rounded to two decimals, `None` if there are none. -/
def _avg (values : List (Option ℚ)) : Option ℚ :=
  let vals := values.filterMap id
  if vals.isEmpty then none else some (round2 (vals.sum / vals.length))

/-- `_avg_dd` (src/server.py lines 742-745): like `_avg` but values that are
`None` **or zero** are dropped, and the empty case yields `0`, not `None`. -/
def _avg_dd (values : List (Option ℚ)) : ℚ :=
  let vals := (values.filterMap id).filter fun v => decide (v ≠ 0)
  if vals.isEmpty then 0 else round2 (vals.sum / vals.length)

/-- Formalisation of the spec's averaging rule, for comparison with the
code: "For each numeric metric field, compute the arithmetic mean across
constituents, ignoring unavailable values (mean of an empty set is
unavailable, not zero)", with the code's two-decimal rounding of the
mean. -/
def spec_mean (values : List (Option ℚ)) : Option ℚ :=
  let vals := values.filterMap id
  if vals.isEmpty then none else some (round2 (vals.sum / vals.length))

/-- The averaged metric fields of the synthetic portfolio entry built by
`build_portfolio_entry` (src/server.py lines 748-816).  The cumulative-return
fields (lines 819-825) are applications of `cumulative_return` to these
averages, and the volatility tail (lines 827-844) is modelled separately by
`portfolio_annualized_stddev`; presentation-only string fields are omitted. -/
structure PortEntry where
  ticker : String
  er : Option ℚ
  ytdReturn : Option ℚ
  oneYearReturn : Option ℚ
  threeYearReturn : Option ℚ
  fiveYearReturn : Option ℚ
  tenYearReturn : Option ℚ
  fifteenYearReturn : Option ℚ
  twentyYearReturn : Option ℚ
  twentyFiveYearReturn : Option ℚ
  sinceInceptionReturn : Option ℚ
  sinceInceptionYears : Option ℚ
  since1990Return : Option ℚ
  since1990Years : Option ℚ
  maxDrawdown : ℚ
  dy : Option ℚ
deriving DecidableEq

/-- `build_portfolio_entry` (src/server.py lines 748-816), the averaged
metric fields.  `pool = assets[:n]`. -/
def build_portfolio_entry (assets : List Entry) (n : Nat) : PortEntry :=
  let pool := assets.take n
  { ticker := "PORT-7"
    er := _avg (pool.map (·.er))
    ytdReturn := _avg (pool.map (·.ytdReturn))
    oneYearReturn := _avg (pool.map (·.oneYearReturn))
    threeYearReturn := _avg (pool.map (·.threeYearReturn))
    fiveYearReturn := _avg (pool.map (·.fiveYearReturn))
    tenYearReturn := _avg (pool.map (·.tenYearReturn))
    fifteenYearReturn := _avg (pool.map (·.fifteenYearReturn))
    twentyYearReturn := _avg (pool.map (·.twentyYearReturn))
    twentyFiveYearReturn := _avg (pool.map (·.twentyFiveYearReturn))
    sinceInceptionReturn := _avg (pool.map (·.sinceInceptionReturn))
    sinceInceptionYears := _avg (pool.map (·.sinceInceptionYears))
    since1990Return := _avg (pool.map (·.since1990Return))
    since1990Years :=
      _avg ((pool.filter fun a => a.since1990Return.isSome).map (·.since1990Years))
    maxDrawdown := _avg_dd (pool.map (·.maxDrawdown))
    dy := _avg (pool.map (·.dy)) }

/-- The volatility tail of `build_portfolio_entry` (src/server.py lines
827-844).  `corr_map=None` (or an empty dict, which Python also treats as
false) is `none`.  With the quadratic form, `rho` is
`corr_map.get(a["ticker"], {}).get(b["ticker"], 0.5)`; the fallback is
`mean(valid stds) / sqrt(n)`; both are rounded to two decimals, and `None`
results when no constituent has a standard deviation. -/
noncomputable def portfolio_annualized_stddev (assets : List Entry) (n : Nat)
    (cm : Option CorrFn) : Option ℝ :=
  let pool := assets.take n
  let stds := pool.map (·.annualizedStdDev)
  if stds.all Option.isSome ∧ cm.isSome then
    let corr := cm.getD fun _ _ => none
    let var_sum : ℚ :=
      (pool.map fun a =>
        (pool.map fun b =>
          (a.annualizedStdDev.getD 0 / 100) * (b.annualizedStdDev.getD 0 / 100) *
            (corr a.ticker b.ticker).getD (1 / 2)).sum).sum
    some (round2R (Real.sqrt ((var_sum : ℝ) / ((n : ℝ) * n)) * 100))
  else
    let valid := stds.filterMap id
    if valid.isEmpty then none
    else some (round2R (((valid.sum / valid.length : ℚ) : ℝ) / Real.sqrt n))

/-! ### History splicing (src/server.py lines 1305-1398)

A stored weekly price series for one ETF ticker is a date-sorted list of
`(date, close)` rows; `db_load_prices` returns it ordered by date with at
most one row per date (the table's primary key), and `db_save_prices` is an
idempotent upsert, so prepending rows whose dates all precede the existing
ones models the insert-then-reload round trip. -/

/-- The backer loop of `_splice_backer_data` (src/server.py lines 1371-1395),
as a function of the running anchor `(current_first_date,
current_first_price)` and the remaining backer layers, returning the rows
spliced in front (oldest layer first).  Each layer keeps only backer rows
strictly before the anchor date with positive close, scales them by
`anchor_value / last_kept_close`, stores them rounded to 4 decimals, and
moves the anchor to the layer's (unrounded) scaled first row. -/
def splice_layers : Nat → ℚ → List (List (Nat × ℚ)) → List (Nat × ℚ)
  | _, _, [] => []
  | anchor_date, anchor_value, backer :: rest =>
    match backer.filter fun p => decide (p.1 < anchor_date ∧ 0 < p.2) with
    | [] => splice_layers anchor_date anchor_value rest
    | p0 :: ps =>
      let lastP := (p0 :: ps).getLast (List.cons_ne_nil p0 ps)
      if lastP.2 ≤ 0 then splice_layers anchor_date anchor_value rest
      else
        let scale := anchor_value / lastP.2
        splice_layers p0.1 (p0.2 * scale) rest ++
          (p0 :: ps).map fun p => (p.1, round4 (p.2 * scale))

/-- One run of `_splice_backer_data` for one ETF ticker (src/server.py lines
1305-1398), acting on the stored rows of that ticker: first every row dated
strictly before the configured inception date is deleted (lines 1353-1358),
then the backer layers are spliced in front of the earliest remaining row
(lines 1360-1395); if nothing remains after the delete the run stops
(`if not etf_prices: continue`). -/
def splice_run (inception : Nat) (backers : List (List (Nat × ℚ)))
    (stored : List (Nat × ℚ)) : List (Nat × ℚ) :=
  match stored.filter fun p => decide (inception ≤ p.1) with
  | [] => []
  | p0 :: native => splice_layers p0.1 p0.2 (backers) ++ p0 :: native

/-! ### Drawdown detection (src/server.py lines 372-471) -/

/-- `DRAWDOWN_LABELS` (src/server.py lines 379-390): trough-year ranges to
event names, in dict insertion order. -/
def DRAWDOWN_LABELS : List ((Nat × Nat) × String) :=
  [((2001, 2003), "Dot-com bust"),
   ((2002, 2003), "Dot-com bust"),
   ((2008, 2009), "Global financial crisis"),
   ((2009, 2009), "Global financial crisis"),
   ((2011, 2012), "European debt crisis"),
   ((2015, 2016), "China / commodity selloff"),
   ((2018, 2019), "Fed tightening / trade war"),
   ((2020, 2020), "COVID-19 crash"),
   ((2022, 2023), "Rate hikes / inflation"),
   ((2023, 2024), "Rate hikes / inflation")]

/-- `_label_drawdown` (src/server.py lines 392-401).  With dates modelled as
`yyyymmdd` numbers, `int(trough_date_str[:4])` is `trough / 10000`. -/
def label_drawdown (trough : Nat) : String :=
  let yr := trough / 10000
  match DRAWDOWN_LABELS.find? fun p => decide (p.1.1 ≤ yr ∧ yr ≤ p.1.2) with
  | some p => p.2
  | none => ""

/-- The result dict of `calc_drawdowns` (src/server.py lines 407-411).
`drawdownPeriod`/`secondDrawdownPeriod` hold the `(peak, trough)` date pair
that the source formats into a string; `none` stands for the `"N/A"` /
`None` period of the empty result. -/
structure DDResult where
  maxDrawdown : ℚ
  drawdownPeriod : Option (Nat × Nat)
  drawdownLabel : String
  maxDdPeak : Option Nat
  maxDdTrough : Option Nat
  secondDrawdown : Option ℚ
  secondDrawdownPeriod : Option (Nat × Nat)
  secondDrawdownLabel : String
deriving DecidableEq

/-- The all-zero result dict (src/server.py lines 407-411). -/
def emptyDD : DDResult :=
  { maxDrawdown := 0, drawdownPeriod := none, drawdownLabel := ""
    maxDdPeak := none, maxDdTrough := none
    secondDrawdown := none, secondDrawdownPeriod := none, secondDrawdownLabel := "" }

/-- The loop state of `calc_drawdowns` (src/server.py lines 416-434):
running peak with its date, the current episode's minimum drawdown with its
trough date, and the completed events `(dd, peak_date, trough_date)`. -/
structure DDState where
  peak : ℚ
  curPeakDate : Nat
  curDd : ℚ
  curTroughDate : Nat
  events : List (ℚ × Nat × Nat)
deriving DecidableEq

/-- One iteration of the `for date_str, price in prices` loop of
`calc_drawdowns` (src/server.py lines 422-434). -/
def dd_step (st : DDState) (pt : Nat × ℚ) : DDState :=
  let st1 :=
    if st.peak < pt.2 then
      { peak := pt.2, curPeakDate := pt.1, curDd := 0, curTroughDate := pt.1
        events :=
          if st.curDd < -(5 / 100) then
            st.events ++ [(st.curDd, st.curPeakDate, st.curTroughDate)]
          else st.events }
    else st
  let dd := (pt.2 - st1.peak) / st1.peak
  if dd < st1.curDd then { st1 with curDd := dd, curTroughDate := pt.1 } else st1

/-- `calc_drawdowns` (src/server.py lines 404-471). -/
def calc_drawdowns (prices : List (Nat × ℚ)) : DDResult :=
  match prices with
  | [] => emptyDD
  | [_] => emptyDD
  | p0 :: _ :: _ =>
    let stF := prices.foldl dd_step ⟨p0.2, p0.1, 0, p0.1, []⟩
    let events :=
      if stF.curDd < -(5 / 100) then
        stF.events ++ [(stF.curDd, stF.curPeakDate, stF.curTroughDate)]
      else stF.events
    match List.insertionSort (fun a b => a.1 ≤ b.1) events with
    | [] => emptyDD
    | best :: rest =>
      let second :=
        rest.find? fun ev =>
          decide (2 ≤ ((ev.2.2 / 10000 : ℤ) - (best.2.2 / 10000 : ℤ)).natAbs)
      { maxDrawdown := round2 (best.1 * 100)
        drawdownPeriod := some (best.2.1, best.2.2)
        drawdownLabel := label_drawdown best.2.2
        maxDdPeak := some best.2.1
        maxDdTrough := some best.2.2
        secondDrawdown := second.map fun ev => round2 (ev.1 * 100)
        secondDrawdownPeriod := second.map fun ev => (ev.2.1, ev.2.2)
        secondDrawdownLabel := (second.map fun ev => label_drawdown ev.2.2).getD "" }

/-- Formalisation of the claim's comparison quantity "single-step
(adjacent-point) percentage decline": the list of adjacent-point relative
changes of a price series. -/
def step_declines : List (Nat × ℚ) → List ℚ
  | a :: b :: rest => (b.2 - a.2) / a.2 :: step_declines (b :: rest)
  | _ => []

/-- Formalisation of "peak-to-trough decline": relative change from any
point to any strictly later point. -/
def pair_declines : List (Nat × ℚ) → List ℚ
  | [] => []
  | a :: rest => (rest.map fun b => (b.2 - a.2) / a.2) ++ pair_declines rest

/-- The deepest (most negative) value of a list of declines, `0` for the
empty list (a decline of a point to itself). -/
def deepest (l : List ℚ) : ℚ := l.foldr min 0

/-- A value reachable as a drawdown during the scan of `calc_drawdowns`:
zero, or the relative change from some point of the series to a (weakly)
later one with positive price. -/
def GoodDd (prices : List (Nat × ℚ)) (x : ℚ) : Prop :=
  x = 0 ∨ ∃ dp pv dt tv, [(dp, pv), (dt, tv)].Sublist prices ∧ 0 < pv ∧ x = (tv - pv) / pv

/-- Invariant of the `calc_drawdowns` scan after processing the prefix
`processed` of the series: positive running peak taken from the processed
prefix, nonpositive reachable current drawdown, and nonpositive reachable
recorded events. -/
def DDInv (prices processed : List (Nat × ℚ)) (st : DDState) : Prop :=
  0 < st.peak ∧ (∃ dp, (dp, st.peak) ∈ processed) ∧
    st.curDd ≤ 0 ∧ GoodDd prices st.curDd ∧
    ∀ e ∈ st.events, e.1 ≤ 0 ∧ GoodDd prices e.1

/-! ### Correlation matrix (src/server.py lines 581-691) -/

/-- `TICKERS` (src/server.py line 49): the non-static keys of `ETF_META`, in
dict insertion order. -/
def TICKERS : List String :=
  ["SPY", "VTI", "QQQ", "IWM", "IWD", "EFA", "VEA", "EEM", "TLT", "GLD", "IYR", "DBC"]

/-- `STATIC_TICKERS` (src/server.py line 50). -/
def STATIC_TICKERS : List String := ["CPH-RE"]

/-- `all_tickers = TICKERS + STATIC_TICKERS` (src/server.py line 618). -/
def all_tickers : List String := TICKERS ++ STATIC_TICKERS

/-- `_ALL_TICKERS_ORDER` (src/server.py lines 583-588): the row/column order
of the fallback matrix.  Note it differs from `TICKERS` (QQQ and VTI are
swapped) but contains the same 13 tickers. -/
def ALL_TICKERS_ORDER : List String :=
  ["SPY", "QQQ", "VTI", "IWM", "IWD", "EFA", "VEA", "EEM", "TLT", "GLD", "IYR", "DBC", "CPH-RE"]

/-- `_FALLBACK_CORR` (src/server.py lines 590-605).  Every float literal in
the source table is an exact multiple of `0.01`, so the table is stored here
as integer hundredths (`0.90 ↦ 90`, `-0.40 ↦ -40`); the rational matrix
entry is the stored integer divided by `100` (see `fallback_corr_map`). -/
def FALLBACK_CORR_X100 : List (List ℤ) :=
  [[100,  90,  99,  88,  93,  87,  86,  75, -40,   5,  65,  35,  15],
   [ 90, 100,  92,  80,  78,  80,  79,  72, -42,   2,  55,  28,  12],
   [ 99,  92, 100,  92,  94,  87,  86,  76, -40,   5,  67,  35,  15],
   [ 88,  80,  92, 100,  88,  82,  82,  76, -38,   5,  72,  40,  15],
   [ 93,  78,  94,  88, 100,  87,  86,  73, -32,   8,  75,  42,  18],
   [ 87,  80,  87,  82,  87, 100,  98,  85, -30,  15,  65,  45,  25],
   [ 86,  79,  86,  82,  86,  98, 100,  85, -30,  15,  64,  44,  25],
   [ 75,  72,  76,  76,  73,  85,  85, 100, -22,  20,  55,  52,  20],
   [-40, -42, -40, -38, -32, -30, -30, -22, 100,  25,   5, -20,   5],
   [  5,   2,   5,   5,   8,  15,  15,  20,  25, 100,  10,  35,  15],
   [ 65,  55,  67,  72,  75,  65,  64,  55,   5,  10, 100,  30,  30],
   [ 35,  28,  35,  40,  42,  45,  44,  52, -20,  35,  30, 100,  20],
   [ 15,  12,  15,  15,  18,  25,  25,  20,   5,  15,  30,  20, 100]]

/-- `FALLBACK_CORR_MAP` (src/server.py lines 607-612) as a nested-dict
lookup: `some` exactly for the tickers of `_ALL_TICKERS_ORDER`. -/
def fallback_corr_map (t1 t2 : String) : Option ℚ :=
  match ALL_TICKERS_ORDER.findIdx? (fun s => s == t1),
      ALL_TICKERS_ORDER.findIdx? (fun s => s == t2) with
  | some i, some j =>
    ((FALLBACK_CORR_X100.get? i).bind fun row => row.get? j).map (fun z : ℤ => (z : ℚ) / 100)
  | _, _ => none

/-- The per-asset return dict built by `compute_correlation_map`
(src/server.py lines 626-646): date-keyed period-over-period returns.
Stored price rows have strictly increasing dates, so the association list
has at most one entry per date and `find?` agrees with the Python dict. -/
def weekly_returns (prices : List (Nat × ℚ)) : List (Nat × ℚ) :=
  (prices.zip prices.tail).filterMap fun pq =>
    if 0 < pq.1.2 then some (pq.2.1, (pq.2.2 - pq.1.2) / pq.1.2) else none

/-- The `price_series` construction of `compute_correlation_map`
(src/server.py lines 619-646): ETF tickers need at least 52 stored rows and
a nonempty return dict; `CPH-RE` needs at least 8 housing rows and a
nonempty return dict; anything else has no series.  The stored prices are a
function `db` from ticker to its rows (`db_load_prices`), plus the housing
rows (`db_load_housing`). -/
def return_series (db : String → List (Nat × ℚ)) (housing : List (Nat × ℚ))
    (t : String) : Option (List (Nat × ℚ)) :=
  if t ∈ TICKERS then
    let prices := db t
    if prices.length < 52 then none
    else
      let r := weekly_returns prices
      if r.isEmpty then none else some r
  else if t = "CPH-RE" then
    if 8 ≤ housing.length then
      let r := weekly_returns housing
      if r.isEmpty then none else some r
    else none
  else none

/-- `price_series[t][d]`: dict lookup of a return by date. -/
def qlookup (l : List (Nat × ℚ)) (d : Nat) : ℚ :=
  ((l.find? fun p => p.1 == d).map (·.2)).getD 0

/-- The live pairwise computation of `compute_correlation_map`
(src/server.py lines 656-681) for two tickers that both have a return
series: `1.0` on the diagonal; the static fallback value when fewer than 26
common dates exist (`set & set`, then `sorted`); otherwise the Pearson
coefficient `cov / (std1 * std2)` rounded to 4 decimals, `0.0` if either
standard deviation vanishes. -/
noncomputable def live_corr (db : String → List (Nat × ℚ)) (housing : List (Nat × ℚ))
    (t1 t2 : String) : ℝ :=
  if t1 = t2 then 1
  else
    let s1 := (return_series db housing t1).getD []
    let s2 := (return_series db housing t2).getD []
    let common := (s1.map Prod.fst).toFinset ∩ (s2.map Prod.fst).toFinset
    if common.card < 26 then ((fallback_corr_map t1 t2).getD (1 / 2) : ℝ)
    else
      let dates := common.sort (· ≤ ·)
      let r1 := dates.map (qlookup s1)
      let r2 := dates.map (qlookup s2)
      let n : ℚ := r1.length
      let mean1 := r1.sum / n
      let mean2 := r2.sum / n
      let cov : ℚ := ((r1.zip r2).map fun ab => (ab.1 - mean1) * (ab.2 - mean2)).sum
      let std1 : ℝ := Real.sqrt (((r1.map fun a => (a - mean1) ^ 2).sum : ℚ) : ℝ)
      let std2 : ℝ := Real.sqrt (((r2.map fun b => (b - mean2) ^ 2).sum : ℚ) : ℝ)
      if 0 < std1 ∧ 0 < std2 then round4R ((cov : ℝ) / (std1 * std2)) else 0

/-- `compute_correlation_map` (src/server.py lines 615-691) as a nested-dict
lookup.  If fewer than 5 tickers have a return series the whole fallback map
is returned.  Otherwise the dict holds the live value for two tickers that
both have series (they are filled first, lines 656-681, and every ticker
with a series is one of `all_tickers`), the static fallback value for any
other pair of known tickers (the fill loop, lines 683-689), and nothing for
unknown tickers. -/
noncomputable def compute_correlation_map (db : String → List (Nat × ℚ))
    (housing : List (Nat × ℚ)) : String → String → Option ℝ :=
  if ((all_tickers.filter fun t => (return_series db housing t).isSome).length) < 5 then
    fun t1 t2 => (fallback_corr_map t1 t2).map (fun q : ℚ => (q : ℝ))
  else fun t1 t2 =>
    if (return_series db housing t1).isSome ∧ (return_series db housing t2).isSome then
      some (live_corr db housing t1 t2)
    else if t1 ∈ all_tickers ∧ t2 ∈ all_tickers then
      some (((fallback_corr_map t1 t2).getD (1 / 2) : ℚ) : ℝ)
    else none

/-! ### Concrete inputs used by counterexample and witness theorems -/

/-- An entry with every metric unavailable. -/
def e0 : Entry :=
  ⟨"", none, none, none, none, none, none, none, none, none, none, none, none, none,
    none, none, none⟩

/-- Asset with a 25-year return of 10% and no 10-year return: its
longest-horizon available annualized return is `10`. -/
def eA : Entry := { e0 with ticker := "A", twentyFiveYearReturn := some 10 }

/-- Asset with only a 10-year return of 5%: its longest-horizon available
annualized return is `5`. -/
def eB : Entry := { e0 with ticker := "B", tenYearReturn := some 5 }

/-- An empty correlation dict. -/
def cm_none : CorrFn := fun _ _ => none

/-- The correlation dict of the spec's two-asset volatility example:
`1` on the diagonal, `0.5` across. -/
def cm_half : CorrFn := fun a b => if a = b then some 1 else some (1 / 2)

/-- First constituent of the volatility example: annualized stddev 15%. -/
def sA : Entry := { e0 with ticker := "A1", annualizedStdDev := some 15 }

/-- Second constituent of the volatility example: annualized stddev 20%. -/
def sB : Entry := { e0 with ticker := "B1", annualizedStdDev := some 20 }

section BasicTheorems

/-- Rounding to one decimal moves a real by at most `1/20`. -/
theorem round1R_abs_sub_le (x : ℝ) : |round1R x - x| ≤ 1 / 20 := by
  have h := abs_sub_round (x * 10)
  rw [round1R]
  have : (round (x * 10) : ℝ) / 10 - x = ((round (x * 10) : ℝ) - x * 10) / 10 := by ring
  rw [this, abs_div]
  rw [show |(10 : ℝ)| = 10 by norm_num]
  rw [abs_sub_comm]
  linarith [h]

/-- C3: for positive start value, end value and years, feeding
`annualized_return` into `cumulative_return` over the same number of years
reproduces the simple total percentage change `(E - S) / S * 100`, up to the
final round-to-one-decimal (at most `1/20` away). -/
theorem c3_cumulative_of_annualized (S E Y : ℝ) (hS : 0 < S) (hE : 0 < E) (hY : 0 < Y) :
    ∃ v, cumulative_return (some (annualized_return S E Y)) Y = some v ∧
      |v - (E - S) / S * 100| ≤ 1 / 20 := by
  have hx : (0 : ℝ) < E / S := div_pos hE hS
  have hguard : ¬(S = 0 ∨ Y ≤ 0) := by
    push_neg
    exact ⟨ne_of_gt hS, hY⟩
  refine ⟨round1R (((1 + annualized_return S E Y / 100) ^ Y - 1) * 100), rfl, ?_⟩
  · rw [annualized_return, if_neg hguard]
    have hbase : 1 + ((E / S) ^ ((1 : ℝ) / Y) - 1) * 100 / 100 = (E / S) ^ ((1 : ℝ) / Y) := by
      ring
    rw [hbase]
    have hpow : ((E / S) ^ ((1 : ℝ) / Y)) ^ Y = E / S := by
      rw [← Real.rpow_mul (le_of_lt hx), one_div, inv_mul_cancel₀ (ne_of_gt hY),
        Real.rpow_one]
    rw [hpow]
    have harg : (E / S - 1) * 100 = (E - S) / S * 100 := by
      field_simp
    rw [harg]
    exact round1R_abs_sub_le _

/-- Witness for C3 at `S = 1`, `E = 2`, `Y = 1`. -/
theorem c3_cumulative_of_annualized_witness :
    ∃ v, cumulative_return (some (annualized_return 1 2 1)) 1 = some v ∧
      |v - ((2 : ℝ) - 1) / 1 * 100| ≤ 1 / 20 :=
  c3_cumulative_of_annualized 1 2 1 one_pos two_pos one_pos

/-- C6 counterexample: the claim says `annualized_return` returns `0`
whenever `startValue ≤ 0`, but for the negative start value `-1` (with
`endValue = 1`, `years = 1`) the guard `not start_price or start_price == 0`
does not fire and the code computes `(1 / -1 - 1) * 100 = -200`, not `0`
(and for fractional `1 / years` the negative power even raises a
`ValueError` in Python). -/
theorem c6_negative_start_counterexample :
    annualized_return (-1) 1 1 = -200 ∧ ((-1 : ℝ) ≤ 0) ∧ annualized_return (-1) 1 1 ≠ 0 := by
  have h : annualized_return (-1) 1 1 = -200 := by
    rw [annualized_return, if_neg (by norm_num)]
    rw [show (1 : ℝ) / (-1) = -1 by norm_num, show (1 : ℝ) / 1 = 1 by norm_num,
      Real.rpow_one]
    norm_num
  exact ⟨h, by norm_num, by rw [h]; norm_num⟩

/-- C6 amended: `annualized_return` returns `0` when the start value is
**exactly zero** or the years are nonpositive (the code's guard
`not start_price or start_price == 0 or years <= 0` only catches
`start_price == 0`, not negative start values), and for nonzero start value
and positive years it returns `((endValue / startValue) ^ (1 / years) - 1) *
100`. -/
theorem c6_guard_amended (S E Y : ℝ) :
    (S = 0 ∨ Y ≤ 0 → annualized_return S E Y = 0) ∧
      (S ≠ 0 → 0 < Y → annualized_return S E Y = ((E / S) ^ ((1 : ℝ) / Y) - 1) * 100) := by
  constructor
  · intro h
    rw [annualized_return, if_pos h]
  · intro hS hY
    rw [annualized_return, if_neg]
    push_neg
    exact ⟨hS, hY⟩

/-- Witness for C6 amended at `S = 0` and at `S = 3`, `E = 6`, `Y = 2`. -/
theorem c6_guard_witness :
    annualized_return 0 5 2 = 0 ∧
      annualized_return 3 6 2 = ((6 / 3 : ℝ) ^ ((1 : ℝ) / 2) - 1) * 100 :=
  ⟨(c6_guard_amended 0 5 2).1 (Or.inl rfl),
    (c6_guard_amended 3 6 2).2 three_ne_zero two_pos⟩

/-- Evaluation helper: rounding a negated numeral. -/
theorem round_neg_natCast_q (n : ℕ) : round (-(n : ℚ)) = -(n : ℤ) := by
  rw [show (-(n : ℚ)) = ((-(n : ℤ) : ℤ) : ℚ) by push_cast; ring, round_intCast]

/-- C2 (failing input for the idempotence part of the claim): one ETF whose
stored data starts at date `20` (value `50`) while its configured inception
date is `10`, with a single backer holding rows `(5, 4)`, `(15, 8)`,
`(19, 20)`.  The first `_splice_backer_data` run anchors at `(20, 50)`,
scales the backer by `50 / 20 = 2.5` and stores rows at dates `5`, `15`,
`19` — two of which are on or after the inception date `10`.  The second run
deletes only rows before date `10`, so it mistakes the leftover spliced rows
for native data, anchors at `(15, 20)`, rescales the remaining backer row by
`20 / 4 = 5`, and produces a different series: date `5` maps to `20` instead
of `10`.  The spec promises idempotent re-splicing with no compounding
drift. -/
theorem c2_splice_second_run_differs :
    splice_run 10 [[(5, 4), (15, 8), (19, 20)]] [(20, 50)] =
        [(5, 10), (15, 20), (19, 50), (20, 50)] ∧
      splice_run 10 [[(5, 4), (15, 8), (19, 20)]]
          (splice_run 10 [[(5, 4), (15, 8), (19, 20)]] [(20, 50)]) =
        [(5, 20), (15, 20), (19, 50), (20, 50)] ∧
      ([(5, 20), (15, 20), (19, 50), (20, 50)] : List (Nat × ℚ)) ≠
        [(5, 10), (15, 20), (19, 50), (20, 50)] := by
  have h1 : splice_run 10 [[(5, 4), (15, 8), (19, 20)]] [(20, 50)] =
      [(5, 10), (15, 20), (19, 50), (20, 50)] := by
    norm_num [splice_run, splice_layers, round4, round_ofNat, List.filter]
  refine ⟨h1, ?_, ?_⟩
  · rw [h1]
    norm_num [splice_run, splice_layers, round4, round_ofNat, List.filter]
  · intro h
    have := List.head_eq_of_cons_eq h
    have h2 : (20 : ℚ) = 10 := congrArg Prod.snd this
    norm_num at h2

end BasicTheorems

section RankingTheorems

/-- Specification of the candidate fold starting from an installed best
`b0`: it ends on some `(b, f b)` with `f b` minimal among `f b0` and the
scores of the traversed list, and `b` is either `b0` itself or the first
strict improver. -/
theorem pick_fold_spec (f : Entry → ℚ) :
    ∀ (t : List Entry) (b0 : Entry),
      ∃ b, List.foldl (pick_step f) (some (b0, f b0)) t = some (b, f b) ∧
        f b ≤ f b0 ∧ (∀ c ∈ t, f b ≤ f c) ∧
        (b = b0 ∨ ∃ l1 l2, t = l1 ++ b :: l2 ∧ f b < f b0 ∧ ∀ c ∈ l1, f b < f c) := by
  intro t
  induction t with
  | nil =>
    intro b0
    exact ⟨b0, rfl, le_refl _, by simp, Or.inl rfl⟩
  | cons c t ih =>
    intro b0
    by_cases h : f c < f b0
    · obtain ⟨b, hfold, hle, hall, hcase⟩ := ih c
      refine ⟨b, ?_, le_trans hle (le_of_lt h), ?_, ?_⟩
      · rw [List.foldl_cons, pick_step, if_pos h]
        exact hfold
      · intro x hx
        rcases List.mem_cons.mp hx with rfl | hx
        · exact hle
        · exact hall x hx
      · rcases hcase with rfl | ⟨l1, l2, ht, hlt, hl1⟩
        · exact Or.inr ⟨[], t, rfl, h, by simp⟩
        · refine Or.inr ⟨c :: l1, l2, by rw [ht]; rfl, lt_trans hlt h, ?_⟩
          intro x hx
          rcases List.mem_cons.mp hx with rfl | hx
          · exact hlt
          · exact hl1 x hx
    · obtain ⟨b, hfold, hle, hall, hcase⟩ := ih b0
      refine ⟨b, ?_, hle, ?_, ?_⟩
      · rw [List.foldl_cons, pick_step, if_neg h]
        exact hfold
      · intro x hx
        rcases List.mem_cons.mp hx with rfl | hx
        · exact le_trans hle (not_lt.mp h)
        · exact hall x hx
      · rcases hcase with rfl | ⟨l1, l2, ht, hlt, hl1⟩
        · exact Or.inl rfl
        · refine Or.inr ⟨c :: l1, l2, by rw [ht]; rfl, hlt, ?_⟩
          intro x hx
          rcases List.mem_cons.mp hx with rfl | hx
          · exact lt_of_lt_of_le hlt (not_lt.mp h)
          · exact hl1 x hx

/-- `pick_candidate` on a nonempty list returns the first candidate whose
score is minimal: every earlier candidate scores strictly higher, every
candidate scores at least as much. -/
theorem pick_candidate_spec (f : Entry → ℚ) (rem : List Entry) (h : rem ≠ []) :
    ∃ b l1 l2, pick_candidate f rem = some (b, f b) ∧ rem = l1 ++ b :: l2 ∧
      (∀ c ∈ l1, f b < f c) ∧ ∀ c ∈ rem, f b ≤ f c := by
  match rem, h with
  | c :: t, _ =>
    obtain ⟨b, hfold, hle, hall, hcase⟩ := pick_fold_spec f t c
    have hpc : pick_candidate f (c :: t) = some (b, f b) := by
      rw [pick_candidate, List.foldl_cons]
      exact hfold
    rcases hcase with rfl | ⟨l1, l2, ht, hlt, hl1⟩
    · refine ⟨b, [], t, hpc, rfl, by simp, ?_⟩
      intro x hx
      rcases List.mem_cons.mp hx with rfl | hx
      · exact le_refl _
      · exact hall x hx
    · refine ⟨b, c :: l1, l2, hpc, by rw [ht]; rfl, ?_, ?_⟩
      · intro x hx
        rcases List.mem_cons.mp hx with rfl | hx
        · exact hlt
        · exact hl1 x hx
      · intro x hx
        rcases List.mem_cons.mp hx with rfl | hx
        · exact le_of_lt hlt
        · exact hall x hx

theorem pick_candidate_nil (f : Entry → ℚ) : pick_candidate f [] = none := rfl

/-- The picked candidate is a member of the remaining list. -/
theorem pick_candidate_mem (f : Entry → ℚ) (rem : List Entry) (b : Entry) (v : ℚ)
    (h : pick_candidate f rem = some (b, v)) : b ∈ rem := by
  cases rem with
  | nil => simp [pick_candidate_nil] at h
  | cons c t =>
    obtain ⟨b', l1, l2, hpc, hdec, -, -⟩ := pick_candidate_spec f (c :: t) (by simp)
    have heq := h.symm.trans hpc
    have hb : b = b' := congrArg Prod.fst (Option.some.inj heq)
    rw [hb, hdec]
    exact List.mem_append_right _ (List.mem_cons_self _ _)

/-- The greedy loop only appends to `selected`, and (given enough fuel) the
appended tail is a permutation of `remaining`. -/
theorem greedyGo_perm (cm : CorrFn) :
    ∀ (fuel : Nat) (sel rem : List Entry), rem.length ≤ fuel →
      ∃ tail, greedyGo cm fuel sel rem = sel ++ tail ∧ tail.Perm rem := by
  intro fuel
  induction fuel with
  | zero =>
    intro sel rem h
    have hnil : rem = [] := List.eq_nil_of_length_eq_zero (Nat.le_zero.mp h)
    subst hnil
    exact ⟨[], by simp [greedyGo], List.Perm.refl _⟩
  | succ n ih =>
    intro sel rem h
    cases rem with
    | nil => exact ⟨[], by simp [greedyGo, pick_candidate_nil], List.Perm.refl _⟩
    | cons c t =>
      obtain ⟨b, l1, l2, hpc, hdec, hstrict, hmin⟩ :=
        pick_candidate_spec (avg_abs_corr cm sel) (c :: t) (by simp)
      have hb_mem : b ∈ c :: t := by
        rw [hdec]
        exact List.mem_append_right _ (List.mem_cons_self _ _)
      have hstep : greedyGo cm (n + 1) sel (c :: t) =
          greedyGo cm n (sel ++ [b]) ((c :: t).erase b) := by
        simp only [greedyGo, hpc]
      have hlen : ((c :: t).erase b).length ≤ n := by
        rw [List.length_erase_of_mem hb_mem]
        simpa using Nat.le_of_succ_le_succ h
      obtain ⟨tail, heq, hperm⟩ := ih (sel ++ [b]) ((c :: t).erase b) hlen
      refine ⟨b :: tail, ?_, ?_⟩
      · rw [hstep, heq, List.append_assoc]
        rfl
      · exact (hperm.cons b).trans (List.perm_cons_erase hb_mem).symm

/-- C10: `diversification_sort` returns a permutation of its input — no
asset is dropped or duplicated by the ranking. -/
theorem c10_permutation (results : List Entry) (cm : CorrFn) (top_n : Nat) :
    (diversification_sort results cm top_n).Perm results := by
  rw [diversification_sort]
  by_cases h : results.length ≤ top_n
  · rw [if_pos h]
    exact List.perm_insertionSort _ _
  · rw [if_neg h]
    obtain ⟨tail, heq, hperm⟩ := greedyGo_perm cm ((by_return_sort results).drop top_n).length
      ((by_return_sort results).take top_n) ((by_return_sort results).drop top_n) (le_refl _)
    rw [heq]
    have h1 := List.Perm.append_left ((by_return_sort results).take top_n) hperm
    rw [List.take_append_drop] at h1
    exact h1.trans (List.perm_insertionSort _ _)

/-- C7: whenever the remaining pool is nonempty, the greedy phase of
`diversification_sort` next places the asset minimising the mean absolute
correlation to the already-selected assets, and among equal minimisers it
places the one earliest in the current remaining order (which preserves the
return-sorted pre-sort order): every candidate before the chosen one scores
strictly higher, every candidate scores at least as much. -/
theorem c7_greedy_step_minimal (cm : CorrFn) (sel rem : List Entry) (fuel : Nat)
    (h : rem ≠ []) :
    ∃ b l1 l2, rem = l1 ++ b :: l2 ∧
      (∀ c ∈ l1, avg_abs_corr cm sel b < avg_abs_corr cm sel c) ∧
      (∀ c ∈ rem, avg_abs_corr cm sel b ≤ avg_abs_corr cm sel c) ∧
      greedyGo cm (fuel + 1) sel rem = greedyGo cm fuel (sel ++ [b]) (rem.erase b) ∧
      (rem.erase b).Sublist rem := by
  obtain ⟨b, l1, l2, hpc, hdec, hstrict, hmin⟩ :=
    pick_candidate_spec (avg_abs_corr cm sel) rem h
  exact ⟨b, l1, l2, hdec, hstrict, hmin, by simp only [greedyGo, hpc],
    List.erase_sublist b rem⟩

/-- Witness for C7: one selected asset, one remaining asset. -/
theorem c7_greedy_step_minimal_witness :
    ∃ b l1 l2, [eA] = l1 ++ b :: l2 ∧
      (∀ c ∈ l1, avg_abs_corr cm_none [eB] b < avg_abs_corr cm_none [eB] c) ∧
      (∀ c ∈ [eA], avg_abs_corr cm_none [eB] b ≤ avg_abs_corr cm_none [eB] c) ∧
      greedyGo cm_none 1 [eB] [eA] = greedyGo cm_none 0 ([eB] ++ [b]) ([eA].erase b) ∧
      ([eA].erase b).Sublist [eA] :=
  c7_greedy_step_minimal cm_none [eB] [eA] 0 (by simp)

/-- C1 counterexample: asset `eA` has the strictly higher longest-horizon
available annualized return (`10`, from its 25-year horizon) than `eB`
(`5`, from its 10-year horizon), yet with `topReturnCount = 1` the first
entry of `diversification_sort` is `eB`, because the code ranks the prefix
by `tenYearReturn or 0` (so `eA` counts as `0`), not by the
longest-horizon-available return. -/
theorem c1_top_slots_counterexample :
    diversification_sort [eA, eB] cm_none 1 = [eB, eA] ∧
      best_annualized_return eA = some 10 ∧ best_annualized_return eB = some 5 ∧
      (5 : ℚ) < 10 := by
  refine ⟨?_, rfl, rfl, by norm_num⟩
  norm_num [diversification_sort, by_return_sort, List.insertionSort, List.orderedInsert,
    ten_key, eA, eB, e0, greedyGo, pick_candidate, pick_step, avg_abs_corr, lookup_corr,
    cm_none, List.erase]

/-- C1 amended: the first `topReturnCount` entries of
`diversification_sort` are the `topReturnCount` assets with the highest
`tenYearReturn` (an absent ten-year return counting as `0`), and they are
sorted non-increasingly by that key: the taken prefix is sorted, and every
dropped entry's key is at most every prefix entry's key. -/
theorem c1_top_slots_amended (results : List Entry) (cm : CorrFn) (top_n : Nat) :
    List.Sorted (fun a b => ten_key b ≤ ten_key a)
        ((diversification_sort results cm top_n).take top_n) ∧
      ∀ a ∈ (diversification_sort results cm top_n).take top_n,
        ∀ b ∈ (diversification_sort results cm top_n).drop top_n, ten_key b ≤ ten_key a := by
  have hsorted : List.Sorted (fun a b => ten_key b ≤ ten_key a) (by_return_sort results) :=
    List.sorted_insertionSort _ _
  have hsplit : List.Pairwise (fun a b => ten_key b ≤ ten_key a)
      ((by_return_sort results).take top_n ++ (by_return_sort results).drop top_n) := by
    rw [List.take_append_drop]
    exact hsorted
  have hcross := (List.pairwise_append.mp hsplit).2.2
  rw [diversification_sort]
  by_cases h : results.length ≤ top_n
  · rw [if_pos h]
    constructor
    · exact hsorted.sublist (List.take_sublist _ _)
    · intro a ha b hb
      exact hcross a ha b hb
  · rw [if_neg h]
    obtain ⟨tail, heq, hperm⟩ := greedyGo_perm cm ((by_return_sort results).drop top_n).length
      ((by_return_sort results).take top_n) ((by_return_sort results).drop top_n) (le_refl _)
    rw [heq]
    have hlen_sort : (by_return_sort results).length = results.length :=
      (List.perm_insertionSort _ _).length_eq
    have htn : top_n ≤ (by_return_sort results).length := by
      rw [hlen_sort]
      exact le_of_not_le h
    have hsel_len : ((by_return_sort results).take top_n).length = top_n := by
      rw [List.length_take]
      exact min_eq_left htn
    have htake : (((by_return_sort results).take top_n) ++ tail).take top_n =
        (by_return_sort results).take top_n := by
      rw [List.take_append_of_le_length (le_of_eq hsel_len.symm)]
      exact List.take_of_length_le (le_of_eq hsel_len)
    have hdrop : (((by_return_sort results).take top_n) ++ tail).drop top_n = tail := by
      rw [List.drop_append_of_le_length (le_of_eq hsel_len.symm),
        List.drop_eq_nil_of_le (le_of_eq hsel_len), List.nil_append]
    rw [htake, hdrop]
    constructor
    · exact hsorted.sublist (List.take_sublist _ _)
    · intro a ha b hb
      exact hcross a ha b (hperm.mem_iff.mp hb)

/-- Witness for C1 amended at the two-asset counterexample input. -/
theorem c1_top_slots_amended_witness :
    List.Sorted (fun a b => ten_key b ≤ ten_key a)
        ((diversification_sort [eA, eB] cm_none 1).take 1) ∧
      ∀ a ∈ (diversification_sort [eA, eB] cm_none 1).take 1,
        ∀ b ∈ (diversification_sort [eA, eB] cm_none 1).drop 1, ten_key b ≤ ten_key a :=
  c1_top_slots_amended [eA, eB] cm_none 1

end RankingTheorems

section PortfolioTheorems

/-- Evaluation helper: `round x = z` from the two floor bounds. -/
theorem round_q_eval (x : ℚ) (z : ℤ) (h1 : (z : ℚ) ≤ x + 1 / 2) (h2 : x + 1 / 2 < z + 1) :
    round x = z := by
  rw [round_eq]
  exact Int.floor_eq_iff.mpr ⟨h1, h2⟩

/-- C8 counterexample: with a single constituent whose drawdown is
unavailable, the synthetic entry's drawdown is the available number `0`, not
unavailable (the claim demands `None`); and `_avg_dd` also ignores an
available drawdown of `0`: for constituents `0` and `-10` it reports `-10`,
not the arithmetic mean `-5` of the available values. -/
theorem c8_drawdown_zero_counterexample :
    (build_portfolio_entry [e0] 7).maxDrawdown = 0 ∧
      _avg [(none : Option ℚ)] = none ∧
      _avg_dd [some 0, some (-10)] = -10 ∧
      ((0 : ℚ) + -10) / 2 = -5 ∧ (-10 : ℚ) ≠ -5 := by
  refine ⟨rfl, rfl, ?_, by norm_num, by norm_num⟩
  have hfil : List.filter (fun v => decide (v ≠ 0))
      (List.filterMap id [some (0 : ℚ), some (-10)]) = [(-10 : ℚ)] := rfl
  simp only [_avg_dd, hfil, List.isEmpty_cons, Bool.false_eq_true, if_false, round2]
  have harg : (([(-10 : ℚ)]).sum / (([(-10 : ℚ)]).length : ℚ)) * 100 = -1000 := by
    simp
    norm_num
  rw [harg, round_q_eval (-1000) (-1000) (by norm_num) (by norm_num)]
  norm_num

/-- C8 amended: the synthetic portfolio's per-horizon returns, expense ratio
and dividend yield each equal the (two-decimal-rounded) arithmetic mean of
the constituents' available values with `None` when no value is available
(`spec_mean`); the drawdown instead averages only the **nonzero** available
drawdowns and falls back to `0` — not `None` — when there are none. -/
theorem c8_portfolio_averages_amended (assets : List Entry) (n : Nat) :
    (((((assets.take n).map (·.maxDrawdown)).filterMap id).filter
          (fun v => decide (v ≠ 0)) = [] →
        (build_portfolio_entry assets n).maxDrawdown = 0) ∧
      ∀ v vs, ((((assets.take n).map (·.maxDrawdown)).filterMap id).filter
          (fun v => decide (v ≠ 0)) = v :: vs →
        (build_portfolio_entry assets n).maxDrawdown =
          round2 ((v :: vs).sum / (v :: vs).length))) ∧
    (build_portfolio_entry assets n).er = spec_mean ((assets.take n).map (·.er)) ∧
    (build_portfolio_entry assets n).ytdReturn = spec_mean ((assets.take n).map (·.ytdReturn)) ∧
    (build_portfolio_entry assets n).oneYearReturn =
      spec_mean ((assets.take n).map (·.oneYearReturn)) ∧
    (build_portfolio_entry assets n).threeYearReturn =
      spec_mean ((assets.take n).map (·.threeYearReturn)) ∧
    (build_portfolio_entry assets n).fiveYearReturn =
      spec_mean ((assets.take n).map (·.fiveYearReturn)) ∧
    (build_portfolio_entry assets n).tenYearReturn =
      spec_mean ((assets.take n).map (·.tenYearReturn)) ∧
    (build_portfolio_entry assets n).fifteenYearReturn =
      spec_mean ((assets.take n).map (·.fifteenYearReturn)) ∧
    (build_portfolio_entry assets n).twentyYearReturn =
      spec_mean ((assets.take n).map (·.twentyYearReturn)) ∧
    (build_portfolio_entry assets n).twentyFiveYearReturn =
      spec_mean ((assets.take n).map (·.twentyFiveYearReturn)) ∧
    (build_portfolio_entry assets n).sinceInceptionReturn =
      spec_mean ((assets.take n).map (·.sinceInceptionReturn)) ∧
    (build_portfolio_entry assets n).sinceInceptionYears =
      spec_mean ((assets.take n).map (·.sinceInceptionYears)) ∧
    (build_portfolio_entry assets n).since1990Return =
      spec_mean ((assets.take n).map (·.since1990Return)) ∧
    (build_portfolio_entry assets n).since1990Years =
      spec_mean (((assets.take n).filter fun a => a.since1990Return.isSome).map
        (·.since1990Years)) ∧
    (build_portfolio_entry assets n).dy = spec_mean ((assets.take n).map (·.dy)) := by
  refine ⟨⟨?_, ?_⟩, rfl, rfl, rfl, rfl, rfl, rfl, rfl, rfl, rfl, rfl, rfl, rfl, rfl, rfl⟩
  · intro h
    show _avg_dd ((assets.take n).map (·.maxDrawdown)) = 0
    simp only [_avg_dd, h, List.isEmpty_nil, if_true]
  · intro v vs h
    show _avg_dd ((assets.take n).map (·.maxDrawdown)) =
      round2 ((v :: vs).sum / (v :: vs).length)
    simp only [_avg_dd, h, List.isEmpty_cons, Bool.false_eq_true, if_false]

/-- Witness for C8 at one constituent with drawdown `-10`. -/
theorem c8_portfolio_averages_witness :
    (build_portfolio_entry [{ e0 with maxDrawdown := some (-10) }] 1).maxDrawdown =
      round2 (([(-10 : ℚ)]).sum / ([(-10 : ℚ)]).length) :=
  (c8_portfolio_averages_amended [{ e0 with maxDrawdown := some (-10) }] 1).1.2
    (-10) [] rfl

/-- The square root of the example's portfolio variance `37/1600 = 0.023125`
lies between `0.15205` and `0.15215`. -/
theorem sqrt_var_bounds :
    (3041 / 500 : ℝ) ≤ Real.sqrt 37 ∧ Real.sqrt 37 < 3043 / 500 := by
  constructor
  · exact (Real.le_sqrt' (by norm_num)).mpr (by norm_num)
  · exact (Real.sqrt_lt' (by norm_num)).mpr (by norm_num)

/-- Evaluation of the spec's two-asset example: stddevs 15% and 20%,
pairwise correlation `0.5`, two equally-weighted constituents — the
quadratic form yields `15.21`, not the spec's `15.70`. -/
theorem portfolio_example_eval :
    portfolio_annualized_stddev [sA, sB] 2 (some cm_half) = some (1521 / 100) := by
  have hAA : (if ("A1" : String) = "A1" then some (1 : ℚ) else some (1 / 2)) = some 1 :=
    if_pos rfl
  have hAB : (if ("A1" : String) = "B1" then some (1 : ℚ) else some (1 / 2)) = some (1 / 2) :=
    if_neg (by decide)
  have hBA : (if ("B1" : String) = "A1" then some (1 : ℚ) else some (1 / 2)) = some (1 / 2) :=
    if_neg (by decide)
  have hBB : (if ("B1" : String) = "B1" then some (1 : ℚ) else some (1 / 2)) = some 1 :=
    if_pos rfl
  norm_num [portfolio_annualized_stddev, sA, sB, e0, cm_half, hAA, hAB, hBA, hBB]
  have h1600 : Real.sqrt 1600 = 40 := by
    rw [show (1600 : ℝ) = 40 ^ 2 by norm_num, Real.sqrt_sq (by norm_num)]
  rw [h1600, round2R]
  have hr : round (Real.sqrt 37 / 40 * 100 * 100) = 1521 := by
    rw [round_eq]
    apply Int.floor_eq_iff.mpr
    constructor
    · push_cast
      linarith [sqrt_var_bounds.1]
    · push_cast
      linarith [sqrt_var_bounds.2]
  rw [hr]
  norm_num

/-- C9 counterexample: the claim's example value is wrong.  For two
equally-weighted constituents with stddevs 15% and 20% and pairwise
correlation `0.5`, the quadratic form gives
`sqrt((1/4)(0.0225 + 0.03 + 0.04)) = sqrt(0.023125) ≈ 0.15207`, so the code
reports `15.21`, not `≈ 15.70`. -/
theorem c9_example_value_counterexample :
    portfolio_annualized_stddev [sA, sB] 2 (some cm_half) = some (1521 / 100) ∧
      (1521 / 100 : ℝ) ≠ 157 / 10 :=
  ⟨portfolio_example_eval, by norm_num⟩

/-- C9 amended: when every constituent has a known stddev and a correlation
map is supplied, the portfolio stddev is
`sqrt((1/n²)·Σᵢ Σⱼ ρᵢⱼ σᵢ σⱼ)` (rounded to two decimals, in percent);
otherwise it is the mean of the available stddevs divided by `sqrt n`; and
the two-asset example (15%, 20%, ρ = 0.5) yields `15.21`%, not the claimed
`≈ 15.70`%. -/
theorem c9_portfolio_stddev_amended (assets : List Entry) (n : Nat) (cm : Option CorrFn) :
    (((assets.take n).map (·.annualizedStdDev)).all Option.isSome ∧ cm.isSome →
        portfolio_annualized_stddev assets n cm =
          some (round2R (Real.sqrt ((1 / (n : ℝ) ^ 2) *
            ((((assets.take n).map fun a => ((assets.take n).map fun b =>
              ((cm.getD fun _ _ => none) a.ticker b.ticker).getD (1 / 2) *
                (a.annualizedStdDev.getD 0 / 100) *
                (b.annualizedStdDev.getD 0 / 100)).sum).sum : ℚ) : ℝ)) * 100))) ∧
      (¬((((assets.take n).map (·.annualizedStdDev)).all Option.isSome : Prop) ∧
          ((cm.isSome : Prop))) →
        ∀ v vs, ((assets.take n).map (·.annualizedStdDev)).filterMap id = v :: vs →
          portfolio_annualized_stddev assets n cm =
            some (round2R ((((v :: vs).sum / (v :: vs).length : ℚ) : ℝ) / Real.sqrt n))) ∧
      portfolio_annualized_stddev [sA, sB] 2 (some cm_half) = some (1521 / 100) := by
  refine ⟨?_, ?_, portfolio_example_eval⟩
  · intro h
    simp only [portfolio_annualized_stddev]
    rw [if_pos h]
    have hq : ((assets.take n).map fun a => ((assets.take n).map fun b =>
          ((cm.getD fun _ _ => none) a.ticker b.ticker).getD (1 / 2) *
            (a.annualizedStdDev.getD 0 / 100) *
            (b.annualizedStdDev.getD 0 / 100)).sum).sum =
        ((assets.take n).map fun a => ((assets.take n).map fun b =>
          (a.annualizedStdDev.getD 0 / 100) * (b.annualizedStdDev.getD 0 / 100) *
            ((cm.getD fun _ _ => none) a.ticker b.ticker).getD (1 / 2)).sum).sum := by
      congr 1
      apply List.map_congr_left
      intro a _
      congr 1
      apply List.map_congr_left
      intro b _
      ring
    rw [hq]
    have harg : ((((assets.take n).map fun a => ((assets.take n).map fun b =>
          (a.annualizedStdDev.getD 0 / 100) * (b.annualizedStdDev.getD 0 / 100) *
            ((cm.getD fun _ _ => none) a.ticker b.ticker).getD (1 / 2)).sum).sum : ℚ) : ℝ) /
          ((n : ℝ) * n) =
        (1 / (n : ℝ) ^ 2) *
          ((((assets.take n).map fun a => ((assets.take n).map fun b =>
            (a.annualizedStdDev.getD 0 / 100) * (b.annualizedStdDev.getD 0 / 100) *
              ((cm.getD fun _ _ => none) a.ticker b.ticker).getD (1 / 2)).sum).sum : ℚ) : ℝ) := by
      ring
    rw [harg]
  · intro hnot v vs hval
    simp only [portfolio_annualized_stddev]
    rw [if_neg hnot]
    simp only [hval, List.isEmpty_cons, Bool.false_eq_true, if_false]

/-- Witness for C9 at the two-asset example. -/
theorem c9_portfolio_stddev_witness :
    portfolio_annualized_stddev [sA, sB] 2 (some cm_half) =
      some (round2R (Real.sqrt ((1 / (2 : ℝ) ^ 2) *
        (((([sA, sB].take 2).map fun a => (([sA, sB].take 2).map fun b =>
          (((some cm_half).getD fun _ _ => none) a.ticker b.ticker).getD (1 / 2) *
            (a.annualizedStdDev.getD 0 / 100) *
            (b.annualizedStdDev.getD 0 / 100)).sum).sum : ℚ) : ℝ)) * 100)) :=
  (c9_portfolio_stddev_amended [sA, sB] 2 (some cm_half)).1 (by decide)

end PortfolioTheorems

section DrawdownTheorems

theorem deepest_le_mem (l : List ℚ) (x : ℚ) (h : x ∈ l) : deepest l ≤ x := by
  induction l with
  | nil => cases h
  | cons a t ih =>
    rcases List.mem_cons.mp h with rfl | hx
    · exact min_le_left _ _
    · exact le_trans (min_le_right _ _) (ih hx)

theorem deepest_nonpos (l : List ℚ) : deepest l ≤ 0 := by
  induction l with
  | nil => exact le_refl _
  | cons a t ih => exact le_trans (min_le_right _ _) ih

theorem pair_declines_mem :
    ∀ (l : List (Nat × ℚ)) (dp : Nat) (pv : ℚ) (dt : Nat) (tv : ℚ),
      [(dp, pv), (dt, tv)].Sublist l → (tv - pv) / pv ∈ pair_declines l := by
  intro l
  induction l with
  | nil =>
    intro dp pv dt tv h
    cases h
  | cons a t ih =>
    intro dp pv dt tv h
    cases h with
    | cons _ h' =>
      exact List.mem_append_right _ (ih dp pv dt tv h')
    | cons₂ _ h' =>
      refine List.mem_append_left _ ?_
      exact List.mem_map.mpr ⟨(dt, tv), List.singleton_sublist.mp h', rfl⟩

/-- If `a` occurs in `pre`, then `[a, b]` is a sublist of `pre ++ b :: rest`. -/
theorem pair_sublist_of_mem (pre rest : List (Nat × ℚ)) (a b : Nat × ℚ) (h : a ∈ pre) :
    [a, b].Sublist (pre ++ b :: rest) := by
  induction pre with
  | nil => cases h
  | cons x pre' ih =>
    rcases List.mem_cons.mp h with rfl | hx
    · refine List.Sublist.cons₂ a ?_
      exact List.singleton_sublist.mpr (List.mem_append_right _ (List.mem_cons_self _ _))
    · exact List.Sublist.cons x (ih hx)

theorem good_ge_deepest (prices : List (Nat × ℚ)) (x : ℚ) (h : GoodDd prices x) :
    deepest (pair_declines prices) ≤ x := by
  rcases h with rfl | ⟨dp, pv, dt, tv, hsub, -, rfl⟩
  · exact deepest_nonpos _
  · exact deepest_le_mem _ _ (pair_declines_mem prices dp pv dt tv hsub)

theorem round2_nonpos (x : ℚ) (h : x ≤ 0) : round2 x ≤ 0 := by
  rw [round2]
  have h1 : round (x * 100) ≤ 0 := by
    rw [round_eq]
    have : ⌊(1 / 2 : ℚ)⌋ = 0 := by
      rw [Int.floor_eq_iff]
      constructor <;> norm_num
    calc ⌊x * 100 + 1 / 2⌋ ≤ ⌊(1 / 2 : ℚ)⌋ := Int.floor_le_floor (by nlinarith)
      _ = 0 := this
  have : ((round (x * 100) : ℤ) : ℚ) ≤ 0 := by exact_mod_cast h1
  linarith [this]

theorem round2_ge_sub (x : ℚ) : x - 1 / 200 ≤ round2 x := by
  have h := abs_sub_round (x * 100)
  rw [abs_le] at h
  rw [round2]
  have h2 : x * 100 - 1 / 2 ≤ ((round (x * 100) : ℤ) : ℚ) := by linarith [h.1]
  linarith

/-- Processing one point preserves the scan invariant. -/
theorem dd_step_inv (prices pre rest : List (Nat × ℚ)) (pt : Nat × ℚ) (st : DDState)
    (hsplit : prices = pre ++ pt :: rest) (hpos : ∀ p ∈ prices, 0 < p.2)
    (hinv : DDInv prices pre st) : DDInv prices (pre ++ [pt]) (dd_step st pt) := by
  obtain ⟨hpk, ⟨dpk, hpkmem⟩, hcd, hgood, hev⟩ := hinv
  have hptpos : 0 < pt.2 := by
    refine hpos pt ?_
    rw [hsplit]
    exact List.mem_append_right _ (List.mem_cons_self _ _)
  rw [dd_step]
  by_cases h1 : st.peak < pt.2
  · rw [if_pos h1]
    have hdd : (pt.2 - pt.2) / pt.2 = 0 := by
      rw [sub_self, zero_div]
    rw [hdd, if_neg (lt_irrefl 0)]
    refine ⟨hptpos, ⟨pt.1, ?_⟩, le_refl 0, Or.inl rfl, ?_⟩
    · exact List.mem_append_right _ (List.mem_cons_self _ _)
    · intro e he
      by_cases h2 : st.curDd < -(5 / 100)
      · rw [if_pos h2] at he
        rcases List.mem_append.mp he with he' | he'
        · exact hev e he'
        · rcases List.mem_singleton.mp he' with rfl
          exact ⟨hcd, hgood⟩
      · rw [if_neg h2] at he
        exact hev e he
  · rw [if_neg h1]
    have hmem' : (dpk, st.peak) ∈ pre ++ [pt] := List.mem_append_left _ hpkmem
    have hdd_nonpos : (pt.2 - st.peak) / st.peak ≤ 0 :=
      div_nonpos_iff.mpr (Or.inr ⟨by linarith [not_lt.mp h1], le_of_lt hpk⟩)
    by_cases h2 : (pt.2 - st.peak) / st.peak < st.curDd
    · rw [if_pos h2]
      refine ⟨hpk, ⟨dpk, hmem'⟩, hdd_nonpos, ?_, hev⟩
      exact Or.inr ⟨dpk, st.peak, pt.1, pt.2,
        hsplit ▸ pair_sublist_of_mem pre rest (dpk, st.peak) pt hpkmem, hpk, rfl⟩
    · rw [if_neg h2]
      exact ⟨hpk, ⟨dpk, hmem'⟩, hcd, hgood, hev⟩

/-- The invariant is preserved along the whole scan. -/
theorem dd_fold_inv (prices : List (Nat × ℚ)) (hpos : ∀ p ∈ prices, 0 < p.2) :
    ∀ (todo pre : List (Nat × ℚ)) (st : DDState), prices = pre ++ todo →
      DDInv prices pre st → DDInv prices (pre ++ todo) (todo.foldl dd_step st) := by
  intro todo
  induction todo with
  | nil =>
    intro pre st h hinv
    simpa using hinv
  | cons pt todo ih =>
    intro pre st h hinv
    have hstep := dd_step_inv prices pre todo pt st h hpos hinv
    have h' : prices = (pre ++ [pt]) ++ todo := by
      rw [h, List.append_assoc]
      rfl
    have := ih (pre ++ [pt]) (dd_step st pt) h' hstep
    rw [List.append_assoc] at this
    simpa using this

/-- On a strictly increasing tail the scan never leaves the clean state. -/
theorem dd_fold_incr :
    ∀ (l : List (Nat × ℚ)) (x : Nat × ℚ) (dp dt : Nat),
      List.Chain (fun a b : Nat × ℚ => a.2 < b.2) x l →
      ∃ pk dpk dtr, l.foldl dd_step ⟨x.2, dp, 0, dt, []⟩ = ⟨pk, dpk, 0, dtr, []⟩ := by
  intro l
  induction l with
  | nil =>
    intro x dp dt _
    exact ⟨x.2, dp, dt, rfl⟩
  | cons b t ih =>
    intro x dp dt hchain
    rcases List.chain_cons.mp hchain with ⟨h1, h2⟩
    have hstep : dd_step ⟨x.2, dp, 0, dt, []⟩ b = ⟨b.2, b.1, 0, b.1, []⟩ := by
      rw [dd_step]
      simp only [if_pos h1]
      rw [show (b.2 - b.2) / b.2 = 0 by rw [sub_self, zero_div]]
      rw [if_neg (lt_irrefl 0)]
      have : ¬((0 : ℚ) < -(5 / 100)) := by norm_num
      simp [this]
    rw [List.foldl_cons, hstep]
    exact ih b b.1 b.1 h2

/-- First step of the scan: the first point leaves the initial state
unchanged. -/
theorem dd_step_first (p0 : Nat × ℚ) :
    dd_step ⟨p0.2, p0.1, 0, p0.1, []⟩ p0 = ⟨p0.2, p0.1, 0, p0.1, []⟩ := by
  rw [dd_step]
  rw [if_neg (lt_irrefl p0.2)]
  rw [show (p0.2 - p0.2) / p0.2 = 0 by rw [sub_self, zero_div]]
  rw [if_neg (lt_irrefl 0)]

/-- C4 counterexample: for the prices `100, 90, 81` the detector reports a
maximum drawdown of `-19` percent (the peak-to-trough decline across two
steps), which is strictly below the deepest single-step (adjacent-point)
decline of `-10` percent — the claim's lower bound does not hold. -/
theorem c4_single_step_counterexample :
    (calc_drawdowns [(1, 100), (2, 90), (3, 81)]).maxDrawdown = -19 ∧
      deepest (step_declines [(1, 100), (2, 90), (3, 81)]) = -(1 / 10) ∧
      (calc_drawdowns [(1, 100), (2, 90), (3, 81)]).maxDrawdown < -(1 / 10) * 100 := by
  have hr : round ((-(19 / 100) : ℚ) * 100 * 100) = -1900 :=
    round_q_eval _ _ (by norm_num) (by norm_num)
  have h1 : (calc_drawdowns [(1, 100), (2, 90), (3, 81)]).maxDrawdown = -19 := by
    norm_num [calc_drawdowns, dd_step, List.insertionSort, List.orderedInsert, round2]
    rw [round_q_eval (-1900) (-1900) (by norm_num) (by norm_num)]
    norm_num
  refine ⟨h1, by norm_num [step_declines, deepest], ?_⟩
  rw [h1]
  norm_num

/-- C4 amended: for every positive price series the detector's reported
maximum-drawdown magnitude is never above `0`, and never more than half a
reporting unit (`1/200` of a percent, from the round-to-two-decimals) below
`100` times the deepest peak-to-trough decline — the most negative relative
change from any point to any later point (`deepest (pair_declines prices)`),
not the deepest adjacent-point decline; and for a strictly increasing series
it reports zero drawdown with no period (the `"N/A"` case) and an empty
label. -/
theorem c4_drawdown_bounds_amended (prices : List (Nat × ℚ))
    (hpos : ∀ p ∈ prices, 0 < p.2) :
    (calc_drawdowns prices).maxDrawdown ≤ 0 ∧
      100 * deepest (pair_declines prices) - 1 / 200 ≤ (calc_drawdowns prices).maxDrawdown ∧
      (List.Chain' (fun a b : Nat × ℚ => a.2 < b.2) prices →
        (calc_drawdowns prices).maxDrawdown = 0 ∧
          (calc_drawdowns prices).drawdownPeriod = none ∧
          (calc_drawdowns prices).drawdownLabel = "") := by
  match prices, hpos with
  | [], _ =>
    refine ⟨le_refl 0, ?_, fun _ => ⟨rfl, rfl, rfl⟩⟩
    have := deepest_nonpos (pair_declines ([] : List (Nat × ℚ)))
    show 100 * deepest (pair_declines ([] : List (Nat × ℚ))) - 1 / 200 ≤ 0
    linarith
  | [p0], _ =>
    refine ⟨le_refl 0, ?_, fun _ => ⟨rfl, rfl, rfl⟩⟩
    have := deepest_nonpos (pair_declines [p0])
    show 100 * deepest (pair_declines [p0]) - 1 / 200 ≤ 0
    linarith
  | p0 :: p1 :: rest, hpos =>
    have hfold : (p0 :: p1 :: rest).foldl dd_step ⟨p0.2, p0.1, 0, p0.1, []⟩ =
        (p1 :: rest).foldl dd_step ⟨p0.2, p0.1, 0, p0.1, []⟩ := by
      rw [List.foldl_cons, dd_step_first]
    have hinv0 : DDInv (p0 :: p1 :: rest) [p0] ⟨p0.2, p0.1, 0, p0.1, []⟩ := by
      refine ⟨hpos p0 (List.mem_cons_self _ _), ⟨p0.1, List.mem_singleton.mpr rfl⟩,
        le_refl 0, Or.inl rfl, ?_⟩
      intro e he
      cases he
    have hinv := dd_fold_inv (p0 :: p1 :: rest) hpos (p1 :: rest) [p0]
      ⟨p0.2, p0.1, 0, p0.1, []⟩ rfl hinv0
    obtain ⟨-, -, hcd, hgood, hev⟩ := hinv
    have hev' : ∀ e ∈ (if ((p1 :: rest).foldl dd_step ⟨p0.2, p0.1, 0, p0.1, []⟩).curDd <
          -(5 / 100) then
          ((p1 :: rest).foldl dd_step ⟨p0.2, p0.1, 0, p0.1, []⟩).events ++
            [(((p1 :: rest).foldl dd_step ⟨p0.2, p0.1, 0, p0.1, []⟩).curDd,
              ((p1 :: rest).foldl dd_step ⟨p0.2, p0.1, 0, p0.1, []⟩).curPeakDate,
              ((p1 :: rest).foldl dd_step ⟨p0.2, p0.1, 0, p0.1, []⟩).curTroughDate)]
        else ((p1 :: rest).foldl dd_step ⟨p0.2, p0.1, 0, p0.1, []⟩).events),
        e.1 ≤ 0 ∧ GoodDd (p0 :: p1 :: rest) e.1 := by
      intro e he
      by_cases h2 : ((p1 :: rest).foldl dd_step ⟨p0.2, p0.1, 0, p0.1, []⟩).curDd < -(5 / 100)
      · rw [if_pos h2] at he
        rcases List.mem_append.mp he with he' | he'
        · exact hev e he'
        · rcases List.mem_singleton.mp he' with rfl
          exact ⟨hcd, hgood⟩
      · rw [if_neg h2] at he
        exact hev e he
    simp only [calc_drawdowns, hfold]
    rcases hsort : List.insertionSort (fun a b : ℚ × Nat × Nat => a.1 ≤ b.1)
        (if ((p1 :: rest).foldl dd_step ⟨p0.2, p0.1, 0, p0.1, []⟩).curDd < -(5 / 100) then
          ((p1 :: rest).foldl dd_step ⟨p0.2, p0.1, 0, p0.1, []⟩).events ++
            [(((p1 :: rest).foldl dd_step ⟨p0.2, p0.1, 0, p0.1, []⟩).curDd,
              ((p1 :: rest).foldl dd_step ⟨p0.2, p0.1, 0, p0.1, []⟩).curPeakDate,
              ((p1 :: rest).foldl dd_step ⟨p0.2, p0.1, 0, p0.1, []⟩).curTroughDate)]
        else ((p1 :: rest).foldl dd_step ⟨p0.2, p0.1, 0, p0.1, []⟩).events)
      with _ | ⟨best, rest'⟩
    · refine ⟨le_refl 0, ?_, fun _ => ⟨rfl, rfl, rfl⟩⟩
      have := deepest_nonpos (pair_declines (p0 :: p1 :: rest))
      show 100 * deepest (pair_declines (p0 :: p1 :: rest)) - 1 / 200 ≤ 0
      linarith
    · have hbest_mem : best ∈ (if ((p1 :: rest).foldl dd_step
            ⟨p0.2, p0.1, 0, p0.1, []⟩).curDd < -(5 / 100) then
            ((p1 :: rest).foldl dd_step ⟨p0.2, p0.1, 0, p0.1, []⟩).events ++
              [(((p1 :: rest).foldl dd_step ⟨p0.2, p0.1, 0, p0.1, []⟩).curDd,
                ((p1 :: rest).foldl dd_step ⟨p0.2, p0.1, 0, p0.1, []⟩).curPeakDate,
                ((p1 :: rest).foldl dd_step ⟨p0.2, p0.1, 0, p0.1, []⟩).curTroughDate)]
          else ((p1 :: rest).foldl dd_step ⟨p0.2, p0.1, 0, p0.1, []⟩).events) := by
        refine (List.perm_insertionSort (fun a b : ℚ × ℕ × ℕ => a.1 ≤ b.1) _).subset ?_
        rw [hsort]
        exact List.mem_cons_self _ _
      obtain ⟨hb_le, hb_good⟩ := hev' best hbest_mem
      have hmul : best.1 * 100 ≤ 0 := by nlinarith
      have hDb : deepest (pair_declines (p0 :: p1 :: rest)) ≤ best.1 :=
        good_ge_deepest _ _ hb_good
      refine ⟨round2_nonpos _ hmul, ?_, ?_⟩
      · calc 100 * deepest (pair_declines (p0 :: p1 :: rest)) - 1 / 200
            ≤ best.1 * 100 - 1 / 200 := by nlinarith
          _ ≤ round2 (best.1 * 100) := round2_ge_sub _
      · intro hch
        obtain ⟨pk, dpk, dtr, hF⟩ := dd_fold_incr (p1 :: rest) p0 p0.1 p0.1 hch
        rw [hF] at hsort
        norm_num [List.insertionSort] at hsort
        exact ((List.cons_ne_nil best rest') hsort).elim

/-- Witness for C4 at the counterexample prices. -/
theorem c4_drawdown_bounds_witness :
    (calc_drawdowns [(1, 100), (2, 90), (3, 81)]).maxDrawdown ≤ 0 ∧
      100 * deepest (pair_declines [(1, 100), (2, 90), (3, 81)]) - 1 / 200 ≤
        (calc_drawdowns [(1, 100), (2, 90), (3, 81)]).maxDrawdown ∧
      (List.Chain' (fun a b : Nat × ℚ => a.2 < b.2) [(1, 100), (2, 90), (3, 81)] →
        (calc_drawdowns [(1, 100), (2, 90), (3, 81)]).maxDrawdown = 0 ∧
          (calc_drawdowns [(1, 100), (2, 90), (3, 81)]).drawdownPeriod = none ∧
          (calc_drawdowns [(1, 100), (2, 90), (3, 81)]).drawdownLabel = "") :=
  c4_drawdown_bounds_amended [(1, 100), (2, 90), (3, 81)] (by decide)

end DrawdownTheorems

section CorrelationTheorems

/-- The static fallback matrix is symmetric on the known tickers. -/
theorem fallback_symm :
    ∀ t1 ∈ all_tickers, ∀ t2 ∈ all_tickers, fallback_corr_map t1 t2 = fallback_corr_map t2 t1 := by
  intro t1 h1 t2 h2
  fin_cases h1 <;> fin_cases h2 <;> rfl

/-- The static fallback matrix is populated on the known tickers. -/
theorem fallback_isSome :
    ∀ t1 ∈ all_tickers, ∀ t2 ∈ all_tickers, (fallback_corr_map t1 t2).isSome = true := by
  intro t1 h1 t2 h2
  fin_cases h1 <;> fin_cases h2 <;> rfl

/-- Every known ticker hits the diagonal entry `1.00` of the fallback
matrix. -/
theorem fallback_diag_idx :
    ∀ t ∈ all_tickers, ∃ i, ALL_TICKERS_ORDER.findIdx? (fun s => s == t) = some i ∧
      ((FALLBACK_CORR_X100.get? i).bind fun row => row.get? i) = some 100 := by
  intro t ht
  fin_cases ht <;> exact ⟨_, rfl, rfl⟩

/-- The static fallback matrix has exactly `1.0` on the diagonal for every
known ticker. -/
theorem fallback_diag : ∀ t ∈ all_tickers, fallback_corr_map t t = some 1 := by
  intro t ht
  obtain ⟨i, hi, hv⟩ := fallback_diag_idx t ht
  rw [fallback_corr_map, hi]
  show Option.map (fun z : ℤ => (z : ℚ) / 100)
    ((FALLBACK_CORR_X100.get? i).bind fun row => row.get? i) = some 1
  rw [hv]
  norm_num

/-- A ticker with a live return series is one of the known tickers. -/
theorem mem_of_return_series (db : String → List (Nat × ℚ)) (housing : List (Nat × ℚ))
    (t : String) (h : (return_series db housing t).isSome = true) : t ∈ all_tickers := by
  rw [return_series] at h
  by_cases h1 : t ∈ TICKERS
  · exact List.mem_append_left _ h1
  · rw [if_neg h1] at h
    by_cases h2 : t = "CPH-RE"
    · rw [h2]
      exact List.mem_append_right _ (List.mem_cons_self _ _)
    · rw [if_neg h2] at h
      simp at h

/-- Swapping the two lists under a zip-and-sum. -/
theorem sum_zip_swap (f : ℚ → ℚ → ℚ) :
    ∀ (l1 l2 : List ℚ),
      ((l1.zip l2).map fun ab => f ab.1 ab.2).sum =
        ((l2.zip l1).map fun ab => f ab.2 ab.1).sum := by
  intro l1
  induction l1 with
  | nil =>
    intro l2
    cases l2 <;> rfl
  | cons a t ih =>
    intro l2
    cases l2 with
    | nil => rfl
    | cons b t2 =>
      simp only [List.zip_cons_cons, List.map_cons, List.sum_cons]
      rw [ih t2]

/-- The live pairwise computation is symmetric in its two tickers. -/
theorem live_corr_symm (db : String → List (Nat × ℚ)) (housing : List (Nat × ℚ))
    (t1 t2 : String) (h1 : t1 ∈ all_tickers) (h2 : t2 ∈ all_tickers) :
    live_corr db housing t1 t2 = live_corr db housing t2 t1 := by
  by_cases heq : t1 = t2
  · subst heq
    rfl
  have heq' : ¬(t2 = t1) := fun h => heq h.symm
  simp only [live_corr]
  rw [if_neg heq, if_neg heq']
  rw [Finset.inter_comm ((((return_series db housing t2).getD []).map Prod.fst).toFinset)
    ((((return_series db housing t1).getD []).map Prod.fst).toFinset)]
  by_cases hc : (((((return_series db housing t1).getD []).map Prod.fst).toFinset ∩
      (((return_series db housing t2).getD []).map Prod.fst).toFinset)).card < 26
  · rw [if_pos hc, if_pos hc, fallback_symm t1 h1 t2 h2]
  · rw [if_neg hc, if_neg hc]
    generalize hR1 : (((((return_series db housing t1).getD []).map Prod.fst).toFinset ∩
      (((return_series db housing t2).getD []).map Prod.fst).toFinset)).sort (· ≤ ·) = dates
    generalize hR1' : dates.map (qlookup ((return_series db housing t1).getD [])) = R1
    generalize hR2' : dates.map (qlookup ((return_series db housing t2).getD [])) = R2
    have hlen : R1.length = R2.length := by
      rw [← hR1', ← hR2', List.length_map, List.length_map]
    rw [hlen]
    have hcov : ((R1.zip R2).map fun ab =>
          (ab.1 - R1.sum / (R2.length : ℚ)) * (ab.2 - R2.sum / (R2.length : ℚ))).sum =
        ((R2.zip R1).map fun ab =>
          (ab.1 - R2.sum / (R2.length : ℚ)) * (ab.2 - R1.sum / (R2.length : ℚ))).sum := by
      rw [sum_zip_swap (fun a b => (a - R1.sum / (R2.length : ℚ)) *
        (b - R2.sum / (R2.length : ℚ))) R1 R2]
      apply congrArg List.sum
      apply List.map_congr_left
      intro ab _
      ring
    exact if_congr and_comm (by rw [hcov, mul_comm]) rfl

/-- C5: for every state of the stored price data, the correlation map is
populated for every pair of known tickers, symmetric, and carries exactly
`1.0` on the diagonal for every known ticker — also when pairs or the whole
matrix come from the static fallback table. -/
theorem c5_correlation_map_props (db : String → List (Nat × ℚ)) (housing : List (Nat × ℚ))
    (t1 t2 : String) (h1 : t1 ∈ all_tickers) (h2 : t2 ∈ all_tickers) :
    (compute_correlation_map db housing t1 t2).isSome = true ∧
      compute_correlation_map db housing t1 t2 = compute_correlation_map db housing t2 t1 ∧
      compute_correlation_map db housing t1 t1 = some 1 := by
  simp only [compute_correlation_map]
  by_cases hc : ((all_tickers.filter fun t => (return_series db housing t).isSome).length) < 5
  · rw [if_pos hc]
    refine ⟨?_, ?_, ?_⟩
    · have hmap : ((fallback_corr_map t1 t2).map (fun q : ℚ => (q : ℝ))).isSome =
          (fallback_corr_map t1 t2).isSome := by
        cases fallback_corr_map t1 t2 <;> rfl
      rw [hmap]
      exact fallback_isSome t1 h1 t2 h2
    · rw [fallback_symm t1 h1 t2 h2]
    · rw [fallback_diag t1 h1]
      simp
  · rw [if_neg hc]
    refine ⟨?_, ?_, ?_⟩
    · by_cases hd : ((return_series db housing t1).isSome : Prop) ∧
          ((return_series db housing t2).isSome : Prop)
      · rw [if_pos hd]
        rfl
      · rw [if_neg hd, if_pos ⟨h1, h2⟩]
        rfl
    · by_cases hd : ((return_series db housing t1).isSome : Prop) ∧
          ((return_series db housing t2).isSome : Prop)
      · rw [if_pos hd, if_pos ⟨hd.2, hd.1⟩]
        exact congrArg some (live_corr_symm db housing t1 t2 h1 h2)
      · have hd' : ¬(((return_series db housing t2).isSome : Prop) ∧
            ((return_series db housing t1).isSome : Prop)) := fun h => hd ⟨h.2, h.1⟩
        rw [if_neg hd, if_pos ⟨h1, h2⟩, if_neg hd', if_pos ⟨h2, h1⟩,
          fallback_symm t1 h1 t2 h2]
    · by_cases hd : ((return_series db housing t1).isSome : Prop)
      · rw [if_pos ⟨hd, hd⟩]
        have : live_corr db housing t1 t1 = 1 := by
          simp [live_corr]
        rw [this]
      · rw [if_neg (fun h => hd h.1), if_pos ⟨h1, h1⟩, fallback_diag t1 h1]
        simp

/-- Witness for C5 at an empty database and the tickers SPY and TLT. -/
theorem c5_correlation_map_props_witness :
    (compute_correlation_map (fun _ => []) [] "SPY" "TLT").isSome = true ∧
      compute_correlation_map (fun _ => []) [] "SPY" "TLT" =
        compute_correlation_map (fun _ => []) [] "TLT" "SPY" ∧
      compute_correlation_map (fun _ => []) [] "SPY" "SPY" = some 1 :=
  c5_correlation_map_props (fun _ => []) [] "SPY" "TLT" (by decide) (by decide)

end CorrelationTheorems
